import Mathlib

/-!
Shallow embedding of `src/ohlcv-provider.js` (class `OHLCVProvider`).

The deque of OHLCV candles is modelled as a `List Candle` (front = head,
back = last).  The external ccxt client's `fetchOHLCV` is modelled as an
oracle `Nat → Int → FetchOutcome`: the first argument is the index of the
call (how many fetches happened before, letting outcomes vary over time),
the second is the `since` timestamp passed by the provider.  JS numbers
holding millisecond timestamps are modelled as `Int`.
`js-sdsl`'s `Deque.front()` / `Deque.back()` return `undefined` on an
empty container, which we model as `Option`; dereferencing `undefined`
(`front()[0]`) is a fault, modelled by `Option`-valued results where
`none` marks the thrown `TypeError`.
-/

/-- One OHLCV record `[timestamp, open, high, low, close, volume]`. -/
structure Candle where
  timestamp : Int
  o : Int
  hi : Int
  lo : Int
  c : Int
  v : Int
deriving Repr, DecidableEq

/-- `24 * 60 * 60 * 1000`, the literal appearing in the width check and in
`getTimestampForDaysAgo`. -/
def dayMillis : Int := 24 * 60 * 60 * 1000

/-- `24 * 60`, the literal appearing in the size check of the backfill loop. -/
def minutesPerDay : Int := 24 * 60

/-- The frozen registry `TIMEFRAMES_IN_MILLISECONDS = { "1m": 60000 }`. -/
def TIMEFRAMES_IN_MILLISECONDS : List (String × Int) := [("1m", 60000)]

/-- `Object.keys(TIMEFRAMES_IN_MILLISECONDS)`. -/
def timeframeKeys : List String := TIMEFRAMES_IN_MILLISECONDS.map Prod.fst

/-- `TIMEFRAMES_IN_MILLISECONDS[tf]` (JS property lookup, `undefined` = `none`). -/
def lookupTimeframe (tf : String) : Option Int :=
  (TIMEFRAMES_IN_MILLISECONDS.find? (fun p => p.fst == tf)).map Prod.snd

/-- The provider state assigned by the constructor after the timeframe check. -/
structure ProviderInit where
  symbol : String
  timeframe : String
  tfMs : Int
  days : Int
  updateInterval : Int
  limit : Int
  buffer : List Candle
  isReady : Bool
deriving Repr, DecidableEq

/-- The `OHLCVProvider` constructor: throws `"Incorrect timeframe"` when the
timeframe is not a key of the registry, before assigning any field;
otherwise assigns the fields (empty deque, `isReady = false`). -/
def constructProvider (symbol timeframe : String) (days updateInterval limit : Int) :
    Except String ProviderInit :=
  if timeframeKeys.contains timeframe then
    Except.ok
      { symbol := symbol, timeframe := timeframe,
        tfMs := (lookupTimeframe timeframe).getD 0,
        days := days, updateInterval := updateInterval, limit := limit,
        buffer := [], isReady := false }
  else
    Except.error "Incorrect timeframe"

/-- `Date.now() - days * 24 * 60 * 60 * 1000` (`#getTimestampForDaysAgo`),
with `Date.now()` passed in as `now`. -/
def getTimestampForDaysAgo (now days : Int) : Int :=
  now - days * dayMillis

/-- `#removeOldCandles`, run against a fixed `sinceDate`: pop the front while
`front()[0] < sinceDate`; return (`some` remaining buffer) on the `else`
branch.  On an empty buffer `front()` is `undefined` and `front()[0]` throws
a `TypeError`: that fault is `none`.  Note the fault is reached exactly when
the loop runs out of candles, so the deque contents at the fault are `[]`. -/
def removeOldCandles (sinceDate : Int) : List Candle → Option (List Candle)
  | [] => none
  | cd :: rest =>
    if cd.timestamp < sinceDate then removeOldCandles sinceDate rest
    else some (cd :: rest)

/-- Deque contents after a `#removeOldCandles` call, whether or not it threw
(when it throws it has already popped every candle). -/
def bufferAfterRemoveOld (sinceDate : Int) (buf : List Candle) : List Candle :=
  (removeOldCandles sinceDate buf).getD []

/-- Outcome of one `fetchOHLCV` call: a resolved chunk or a rejection. -/
inductive FetchOutcome where
  | ok (chunk : List Candle)
  | err
deriving Repr, DecidableEq

/-- Which exit of the backfill `while` loop was taken. -/
inductive ExitReason where
  | emptyChunk
  | checksHit
  | fetchError
deriving Repr, DecidableEq

def defaultCandle : Candle := ⟨0, 0, 0, 0, 0, 0⟩

/-- `deque.front()[0]`, when it exists. -/
def frontTs (buf : List Candle) : Option Int := buf.head?.map Candle.timestamp

/-- `deque.back()[0]`, when it exists. -/
def backTs (buf : List Candle) : Option Int := buf.getLast?.map Candle.timestamp

/-- The first disjunct of the loop's stop test, exactly as in the source:
`deque.front()[0] === deque.back()[0] + days * 24 * 60 * 60 * 1000`. -/
def widthCheck (days : Int) (buf : List Candle) : Bool :=
  match frontTs buf, backTs buf with
  | some f, some b => decide (f = b + days * dayMillis)
  | _, _ => false

/-- The second disjunct of the loop's stop test:
`deque.size() >= days * 24 * 60`. -/
def sizeCheck (days : Int) (buf : List Candle) : Bool :=
  decide (days * minutesPerDay ≤ (buf.length : Int))

/-- State of one backfill loop iteration: the deque, `nextCandleTime`, the
(untouched) `isReady` flag, and how many fetch calls happened so far. -/
structure LoopSt where
  buffer : List Candle
  nextCandleTime : Int
  isReady : Bool
  calls : Nat
deriving Repr, DecidableEq

/-- One iteration of the backfill `while` loop body given the fetch outcome:
a rejection hits the `catch` and breaks; an empty chunk breaks; otherwise the
chunk is pushed back candle by candle, `nextCandleTime` advances to
`lastChunkCandle[0] + TIMEFRAMES_IN_MILLISECONDS[tf]`, and the stop test
(`widthCheck || sizeCheck`) decides whether the loop exits or fetches again. -/
def backfillIter (days tfMs : Int) (s : LoopSt) (o : FetchOutcome) :
    (List Candle × ExitReason) ⊕ LoopSt :=
  match o with
  | FetchOutcome.err => Sum.inl (s.buffer, ExitReason.fetchError)
  | FetchOutcome.ok chunk =>
    if chunk.isEmpty then Sum.inl (s.buffer, ExitReason.emptyChunk)
    else
      let buf' := s.buffer ++ chunk
      let next' := ((chunk.getLast?).getD defaultCandle).timestamp + tfMs
      if widthCheck days buf' || sizeCheck days buf' then
        Sum.inl (buf', ExitReason.checksHit)
      else
        Sum.inr { buffer := buf', nextCandleTime := next',
                  isReady := s.isReady, calls := s.calls + 1 }

/-- The backfill `while` loop (`#loadInitialData`), driven by the fetch
oracle, with fuel bounding the number of iterations: returns the deque at
loop exit, the number of fetch calls made, and the exit reason (`none` when
the fuel ran out with the loop still going). -/
def backfillLoop (days tfMs : Int) (fetch : Nat → Int → FetchOutcome) :
    Nat → LoopSt → List Candle × Nat × Option ExitReason
  | 0, s => (s.buffer, s.calls, none)
  | n + 1, s =>
    match backfillIter days tfMs s (fetch s.calls s.nextCandleTime) with
    | Sum.inl (buf, r) => (buf, s.calls + 1, some r)
    | Sum.inr s' => backfillLoop days tfMs fetch n s'

/-- Externally observable provider state: deque, `#isReady`, fetch calls so far. -/
structure ProvSt where
  buffer : List Candle
  isReady : Bool
  calls : Nat
deriving Repr, DecidableEq

/-- The two lines after the backfill loop: `#removeOldCandles()` then
`#isReady = true`.  When the eviction pass throws (empty deque at its end),
the exception propagates out of `#loadInitialData`, `#isReady` is never
assigned, and the deque has been drained to `[]`. -/
def finishBackfill (days now : Int) (buf : List Candle) (calls : Nat) : ProvSt :=
  match removeOldCandles (getTimestampForDaysAgo now days) buf with
  | some b => { buffer := b, isReady := true, calls := calls }
  | none => { buffer := [], isReady := false, calls := calls }

/-- `#startWatchingForNewOHLCV` (one live tick's body): fetch from
`deque.back()[0] + tfMs`, push each returned candle, evict, set
`#isReady = true`; any throw inside the `try` (the `TypeError` from
`back()[0]` on an empty deque, a fetch rejection, or the eviction fault)
is caught and sets `#isReady = false`. -/
def watchStep (days tfMs now : Int) (fetch : Nat → Int → FetchOutcome)
    (s : ProvSt) : ProvSt :=
  match backTs s.buffer with
  | none => { buffer := s.buffer, isReady := false, calls := s.calls }
  | some b =>
    match fetch s.calls (b + tfMs) with
    | FetchOutcome.err =>
        { buffer := s.buffer, isReady := false, calls := s.calls + 1 }
    | FetchOutcome.ok chunk =>
      match removeOldCandles (getTimestampForDaysAgo now days) (s.buffer ++ chunk) with
      | some kept => { buffer := kept, isReady := true, calls := s.calls + 1 }
      | none => { buffer := [], isReady := false, calls := s.calls + 1 }

/-- One firing of the `#startMonitoring` interval: the tick body runs only
under the `if (this.#isReady)` guard. -/
def monitorStep (days tfMs : Int) (fetch : Nat → Int → FetchOutcome)
    (s : ProvSt) (now : Int) : ProvSt :=
  if s.isReady then watchStep days tfMs now fetch s else s

/-- A run of the live updater: one `monitorStep` per scheduled firing time. -/
def runTicks (days tfMs : Int) (fetch : Nat → Int → FetchOutcome)
    (s : ProvSt) (nows : List Int) : ProvSt :=
  nows.foldl (monitorStep days tfMs fetch) s

theorem removeOldCandles_example :
    removeOldCandles 5 [⟨3,0,0,0,0,0⟩, ⟨7,0,0,0,0,0⟩] = some [⟨7,0,0,0,0,0⟩] := by
  decide

/-! ### Read accessors (`getFirst` / `getLast`) -/

/-- Result of a JS method call: a normal return (`value none` models
returning `undefined`) or a thrown error. -/
inductive JsCallResult (α : Type) where
  | value (v : Option α)
  | thrown (msg : String)
deriving Repr, DecidableEq

/-- `js-sdsl` `Deque.front()`: first element, or `undefined` when empty. -/
def dequeFront (buf : List Candle) : Option Candle := buf.head?

/-- `js-sdsl` `Deque.back()`: last element, or `undefined` when empty. -/
def dequeBack (buf : List Candle) : Option Candle := buf.getLast?

/-- `getFirst() { return this.#deque.front(); }` — a plain return, no check. -/
def getFirstCall (buf : List Candle) : JsCallResult Candle :=
  JsCallResult.value (dequeFront buf)

/-- `getLast() { return this.#deque.back(); }` — a plain return, no check. -/
def getLastCall (buf : List Candle) : JsCallResult Candle :=
  JsCallResult.value (dequeBack buf)

/-- C3: on an empty buffer `#removeOldCandles` does NOT short-circuit: it
dereferences `front()` of the empty deque (`front()[0]`), a fault (`none`).
The claim that it returns normally leaving state unchanged fails. -/
theorem removeOldCandles_empty_faults (sinceDate : Int) :
    removeOldCandles sinceDate [] = none := rfl

/-- C6 counterexample: on a buffer that has never received data, `getFirst()`
and `getLast()` return normally with the sentinel `undefined`
(`JsCallResult.value none`), instead of raising an EmptyBuffer error. -/
theorem getAccessors_empty_return_undefined :
    getFirstCall [] = JsCallResult.value none ∧
    getLastCall [] = JsCallResult.value none := ⟨rfl, rfl⟩

/-- C6 amended: `getFirst()`/`getLast()` never throw; they return the
front/back candle when one exists and the sentinel `undefined` otherwise. -/
theorem getAccessors_never_throw (buf : List Candle) :
    (∀ msg, getFirstCall buf ≠ JsCallResult.thrown msg) ∧
    (∀ msg, getLastCall buf ≠ JsCallResult.thrown msg) ∧
    getFirstCall buf = JsCallResult.value buf.head? ∧
    getLastCall buf = JsCallResult.value buf.getLast? := by
  refine ⟨fun msg h => ?_, fun msg h => ?_, rfl, rfl⟩ <;> cases h

/-- C10: the interval registry holds exactly the entry `"1m" ↦ 60000`; the
constructor throws `"Incorrect timeframe"` for every other timeframe before
assigning any state, and succeeds for `"1m"` with interval 60000 ms, an
empty deque and `isReady = false`. -/
theorem constructor_timeframe_registry (symbol : String) (days updateInterval limit : Int) :
    TIMEFRAMES_IN_MILLISECONDS = [("1m", 60000)] ∧
    (∀ tf : String, tf ≠ "1m" →
      constructProvider symbol tf days updateInterval limit =
        Except.error "Incorrect timeframe") ∧
    ∃ p, constructProvider symbol "1m" days updateInterval limit = Except.ok p ∧
      p.tfMs = 60000 ∧ p.isReady = false ∧ p.buffer = [] := by
  refine ⟨rfl, ?_, ⟨_, rfl, rfl, rfl, rfl⟩⟩
  intro tf htf
  have hm : tf ∉ timeframeKeys := by
    simp [timeframeKeys, TIMEFRAMES_IN_MILLISECONDS]
    exact htf
  simp [constructProvider, hm]

/-- C10 witness: a non-registered timeframe is rejected at construction. -/
theorem constructor_timeframe_registry_witness :
    constructProvider "BTC/USDT" "5m" 7 10000 1000 =
      Except.error "Incorrect timeframe" :=
  (constructor_timeframe_registry "BTC/USDT" 7 10000 1000).2.1 "5m" (by decide)

/-! ### Backfill loop termination (C1) -/

/-- The width condition claimed by the spec, literally:
`front.timestamp - back.timestamp` equals `-windowDays * dayMillis`. -/
def specWidthCondition (days : Int) (buf : List Candle) : Bool :=
  match frontTs buf, backTs buf with
  | some f, some b => decide (f - b = -(days * dayMillis))
  | _, _ => false

/-- A chunk of two candles exactly one window apart (days = 1). -/
def cexChunkC1 : List Candle := [⟨0, 0, 0, 0, 0, 0⟩, ⟨86400000, 0, 0, 0, 0, 0⟩]

/-- C1 counterexample: after this chunk the spec's width condition
`front - back = -windowDays * dayMillis` holds while the empty-chunk and size
conditions do not, yet the loop does not stop: it continues (`Sum.inr`),
because the code's width check is `front = back + windowDays * dayMillis`. -/
theorem backfill_width_sign_counterexample :
    specWidthCondition 1 cexChunkC1 = true ∧
    sizeCheck 1 cexChunkC1 = false ∧
    backfillIter 1 60000 ⟨[], 0, false, 0⟩ (FetchOutcome.ok cexChunkC1) =
      Sum.inr ⟨cexChunkC1, 86460000, false, 1⟩ := by decide

/-- C1 amended: after a fetch, the backfill loop issues another fetch exactly
when the outcome was a non-empty chunk for which, on the buffer with the
chunk appended, both the code's width check
(`front = back + windowDays * dayMillis`) and the size check
(`size ≥ windowDays * minutesPerDay`) are false; an empty chunk, a true
check, or a fetch failure stops the loop. -/
theorem backfill_continue_iff (days tfMs : Int) (s : LoopSt) (o : FetchOutcome) :
    (∃ s', backfillIter days tfMs s o = Sum.inr s') ↔
      ∃ chunk, o = FetchOutcome.ok chunk ∧ chunk ≠ [] ∧
        widthCheck days (s.buffer ++ chunk) = false ∧
        sizeCheck days (s.buffer ++ chunk) = false := by
  cases o with
  | err => simp [backfillIter]
  | ok chunk =>
    by_cases hc : chunk = []
    · subst hc; simp [backfillIter]
    · have hc' : chunk.isEmpty = false := by
        simp [List.isEmpty_iff, hc]
      by_cases hw : widthCheck days (s.buffer ++ chunk) = true
      · simp [backfillIter, hc', hw]
      · by_cases hs : sizeCheck days (s.buffer ++ chunk) = true
        · simp [backfillIter, hc', hs]
        · simp only [Bool.not_eq_true] at hw hs
          simp [backfillIter, hc', hw, hs, hc]

/-- C1 amended witness: a concrete non-empty chunk failing both checks makes
the loop continue. -/
theorem backfill_continue_iff_witness :
    ∃ s', backfillIter 1 60000 ⟨[], 0, false, 0⟩ (FetchOutcome.ok cexChunkC1) =
      Sum.inr s' :=
  (backfill_continue_iff 1 60000 ⟨[], 0, false, 0⟩ (FetchOutcome.ok cexChunkC1)).mpr
    ⟨cexChunkC1, rfl, by decide, by decide, by decide⟩

/-! ### Readiness lifecycle (C2, C4, C5) and live ticks (C8) -/

/-- The provider states observable after each backfill iteration: the deque
together with the `#isReady` flag, which the loop body never assigns. -/
def backfillStates (days tfMs : Int) (fetch : Nat → Int → FetchOutcome) :
    Nat → LoopSt → List ProvSt
  | 0, _ => []
  | n + 1, s =>
    match backfillIter days tfMs s (fetch s.calls s.nextCandleTime) with
    | Sum.inl (buf, _) => [⟨buf, s.isReady, s.calls + 1⟩]
    | Sum.inr s' =>
        ⟨s'.buffer, s'.isReady, s'.calls⟩ :: backfillStates days tfMs fetch n s'

theorem backfillIter_inr_isReady (days tfMs : Int) (s s' : LoopSt)
    (o : FetchOutcome) (h : backfillIter days tfMs s o = Sum.inr s') :
    s'.isReady = s.isReady := by
  cases o with
  | err => simp [backfillIter] at h
  | ok chunk =>
    by_cases hc : chunk.isEmpty
    · simp [backfillIter, hc] at h
    · by_cases hw : (widthCheck days (s.buffer ++ chunk) ||
          sizeCheck days (s.buffer ++ chunk)) = true
      · simp [backfillIter, hc, hw] at h
      · simp [backfillIter, hc, hw] at h
        rw [← h]

theorem backfillStates_isReady_false (days tfMs : Int)
    (fetch : Nat → Int → FetchOutcome) :
    ∀ (n : Nat) (s : LoopSt), s.isReady = false →
      ∀ st ∈ backfillStates days tfMs fetch n s, st.isReady = false := by
  intro n
  induction n with
  | zero =>
    intro s _ st hst
    simp [backfillStates] at hst
  | succ n ih =>
    intro s h st hst
    unfold backfillStates at hst
    cases hit : backfillIter days tfMs s (fetch s.calls s.nextCandleTime) with
    | inl p =>
      rw [hit] at hst
      rcases p with ⟨buf, r⟩
      simp at hst
      rw [hst]
      exact h
    | inr s' =>
      rw [hit] at hst
      simp at hst
      have hready : s'.isReady = false :=
        (backfillIter_inr_isReady days tfMs s s' _ hit).trans h
      rcases hst with hst | hst
      · rw [hst]; exact hready
      · exact ih s' hready st hst

theorem monitorStep_not_ready (days tfMs : Int)
    (fetch : Nat → Int → FetchOutcome) (s : ProvSt) (now : Int)
    (h : s.isReady = false) : monitorStep days tfMs fetch s now = s := by
  simp [monitorStep, h]

theorem runTicks_not_ready (days tfMs : Int)
    (fetch : Nat → Int → FetchOutcome) (s : ProvSt) (nows : List Int)
    (h : s.isReady = false) : runTicks days tfMs fetch s nows = s := by
  induction nows with
  | nil => rfl
  | cons t rest ih =>
    calc runTicks days tfMs fetch s (t :: rest)
        = runTicks days tfMs fetch (monitorStep days tfMs fetch s t) rest := rfl
      _ = runTicks days tfMs fetch s rest := by
          rw [monitorStep_not_ready days tfMs fetch s t h]
      _ = s := ih

theorem watchStep_err_not_ready (days tfMs : Int)
    (fetch : Nat → Int → FetchOutcome) (s : ProvSt) (now b : Int)
    (hb : backTs s.buffer = some b)
    (hf : fetch s.calls (b + tfMs) = FetchOutcome.err) :
    (watchStep days tfMs now fetch s).isReady = false := by
  simp [watchStep, hb, hf]

/-- C4: with a fetch that fails on the very first backfill iteration, the
loop exits through the `catch` with an empty deque; the Window Maintainer is
then invoked once, faults dereferencing `front()` of the empty deque, the
exception propagates out of `#loadInitialData`, and `#isReady = true` is
never reached — the provider never becomes ready. -/
theorem backfill_first_failure_never_ready :
    backfillLoop 7 60000 (fun _ _ => FetchOutcome.err) 5 ⟨[], 0, false, 0⟩ =
      ([], 1, some ExitReason.fetchError) ∧
    removeOldCandles (getTimestampForDaysAgo 86400000 7) [] = none ∧
    finishBackfill 7 86400000 [] 1 = ⟨[], false, 1⟩ := by decide

/-- C5: the tick body clears `#isReady` when its fetch rejects, and once
`#isReady` is false every subsequent firing of the monitoring interval is
skipped by the `if (this.#isReady)` guard: no later sequence of ticks
changes the state at all, whatever the fetch oracle would answer, so
readiness is never restored. -/
theorem readiness_never_restored (days tfMs : Int)
    (fetch : Nat → Int → FetchOutcome) :
    (∀ (s : ProvSt) (now b : Int), backTs s.buffer = some b →
        fetch s.calls (b + tfMs) = FetchOutcome.err →
        (watchStep days tfMs now fetch s).isReady = false) ∧
    (∀ (s : ProvSt) (nows : List Int), s.isReady = false →
        runTicks days tfMs fetch s nows = s) :=
  ⟨fun s now b hb hf => watchStep_err_not_ready days tfMs fetch s now b hb hf,
   fun s nows h => runTicks_not_ready days tfMs fetch s nows h⟩

/-- C5 witness: after a failed tick has cleared readiness, two further ticks
whose fetch would succeed leave the provider state untouched. -/
theorem readiness_never_restored_witness :
    (watchStep 7 60000 200000 (fun _ _ => FetchOutcome.err)
        ⟨[⟨100000, 0, 0, 0, 0, 0⟩], true, 2⟩).isReady = false ∧
    runTicks 7 60000 (fun _ _ => FetchOutcome.ok [⟨160000, 0, 0, 0, 0, 0⟩])
        ⟨[⟨100000, 0, 0, 0, 0, 0⟩], false, 3⟩ [300000, 400000] =
      ⟨[⟨100000, 0, 0, 0, 0, 0⟩], false, 3⟩ :=
  ⟨(readiness_never_restored 7 60000 (fun _ _ => FetchOutcome.err)).1
      ⟨[⟨100000, 0, 0, 0, 0, 0⟩], true, 2⟩ 200000 100000 (by decide) rfl,
   (readiness_never_restored 7 60000
      (fun _ _ => FetchOutcome.ok [⟨160000, 0, 0, 0, 0, 0⟩])).2
      ⟨[⟨100000, 0, 0, 0, 0, 0⟩], false, 3⟩ [300000, 400000] rfl⟩

/-- C8: a live tick body whose fetch rejects leaves the deque exactly
unchanged (nothing appended, nothing evicted), and a tick whose fetch
resolves with an empty chunk appends nothing: its resulting deque is exactly
the standard eviction pass applied to the previous deque. -/
theorem tick_failure_and_empty_chunk (days tfMs now : Int)
    (fetch : Nat → Int → FetchOutcome) (s : ProvSt) (b : Int)
    (hb : backTs s.buffer = some b) :
    (fetch s.calls (b + tfMs) = FetchOutcome.err →
      (watchStep days tfMs now fetch s).buffer = s.buffer) ∧
    (fetch s.calls (b + tfMs) = FetchOutcome.ok [] →
      (watchStep days tfMs now fetch s).buffer =
        bufferAfterRemoveOld (getTimestampForDaysAgo now days) s.buffer) := by
  constructor
  · intro hf
    simp [watchStep, hb, hf]
  · intro hf
    simp only [watchStep, hb, hf, List.append_nil, bufferAfterRemoveOld]
    cases hrm : removeOldCandles (getTimestampForDaysAgo now days) s.buffer with
    | none => simp [hrm]
    | some kept => simp [hrm]

/-- C8 witness: a concrete failing tick and a concrete empty-chunk tick. -/
theorem tick_failure_and_empty_chunk_witness :
    (watchStep 7 60000 120000 (fun _ _ => FetchOutcome.err)
        ⟨[⟨100000, 0, 0, 0, 0, 0⟩], true, 2⟩).buffer = [⟨100000, 0, 0, 0, 0, 0⟩] ∧
    (watchStep 7 60000 120000 (fun _ _ => FetchOutcome.ok [])
        ⟨[⟨100000, 0, 0, 0, 0, 0⟩], true, 2⟩).buffer =
      bufferAfterRemoveOld (getTimestampForDaysAgo 120000 7)
        [⟨100000, 0, 0, 0, 0, 0⟩] :=
  ⟨(tick_failure_and_empty_chunk 7 60000 120000 (fun _ _ => FetchOutcome.err)
      ⟨[⟨100000, 0, 0, 0, 0, 0⟩], true, 2⟩ 100000 (by decide)).1 rfl,
   (tick_failure_and_empty_chunk 7 60000 120000 (fun _ _ => FetchOutcome.ok [])
      ⟨[⟨100000, 0, 0, 0, 0, 0⟩], true, 2⟩ 100000 (by decide)).2 rfl⟩

/-! ### Readiness is not permanent (C2) -/

/-- Concrete fetch oracle: first call resolves one candle, second call
resolves an empty chunk (ending backfill), every later call rejects. -/
def cexFetchC2 : Nat → Int → FetchOutcome := fun k _ =>
  match k with
  | 0 => FetchOutcome.ok [⟨1000000, 0, 0, 0, 0, 0⟩]
  | 1 => FetchOutcome.ok []
  | _ => FetchOutcome.err

/-- Backfill run of `cexFetchC2` with `days = 1`, started at
`getTimestampForDaysAgo 1000000 1`. -/
def cexBackfillC2 : List Candle × Nat × Option ExitReason :=
  backfillLoop 1 60000 cexFetchC2 3 ⟨[], -85400000, false, 0⟩

/-- The provider state right after `#loadInitialData` finishes in that run. -/
def cexReadyC2 : ProvSt :=
  finishBackfill 1 1000000 cexBackfillC2.1 cexBackfillC2.2.1

/-- C2 counterexample: in this run the backfill loop terminates by the
empty-chunk condition and `isDataAvailable()` becomes true, but the next
live tick's fetch rejects and sets `#isReady` back to false — readiness is
not permanent. -/
theorem isReady_not_permanent_counterexample :
    cexBackfillC2.2.2 = some ExitReason.emptyChunk ∧
    cexReadyC2.isReady = true ∧
    (runTicks 1 60000 cexFetchC2 cexReadyC2 [1010000]).isReady = false := by
  decide

/-- C2 amended: `isDataAvailable()` is false at every point while the
backfill loop is still running; after loop termination it becomes true if
and only if the closing eviction pass returns without faulting; and it is
not permanent: a live tick whose fetch rejects sets it back to false, after
which every further tick is skipped by the readiness guard, so the state
never changes again. -/
theorem isReady_lifecycle (days tfMs : Int) (fetch : Nat → Int → FetchOutcome)
    (fuel : Nat) (startSince : Int) :
    (∀ st ∈ backfillStates days tfMs fetch fuel ⟨[], startSince, false, 0⟩,
        st.isReady = false) ∧
    (∀ (now : Int) (buf : List Candle) (calls : Nat),
        (finishBackfill days now buf calls).isReady = true ↔
          (removeOldCandles (getTimestampForDaysAgo now days) buf).isSome = true) ∧
    (∀ (s : ProvSt) (now b : Int), backTs s.buffer = some b →
        fetch s.calls (b + tfMs) = FetchOutcome.err →
        (watchStep days tfMs now fetch s).isReady = false) ∧
    (∀ (s : ProvSt) (nows : List Int), s.isReady = false →
        runTicks days tfMs fetch s nows = s) := by
  refine ⟨?_, ?_, ?_, ?_⟩
  · exact backfillStates_isReady_false days tfMs fetch fuel _ rfl
  · intro now buf calls
    cases hrm : removeOldCandles (getTimestampForDaysAgo now days) buf with
    | none => simp [finishBackfill, hrm]
    | some b => simp [finishBackfill, hrm]
  · exact fun s now b hb hf => watchStep_err_not_ready days tfMs fetch s now b hb hf
  · exact fun s nows h => runTicks_not_ready days tfMs fetch s nows h

/-- C2 amended witness: a concrete failing tick clears readiness, and a
concrete non-ready state is frozen by later ticks. -/
theorem isReady_lifecycle_witness :
    (watchStep 1 60000 1010000 cexFetchC2
        ⟨[⟨1000000, 0, 0, 0, 0, 0⟩], true, 2⟩).isReady = false ∧
    runTicks 1 60000 cexFetchC2 ⟨[], false, 5⟩ [0, 1] = ⟨[], false, 5⟩ :=
  ⟨(isReady_lifecycle 1 60000 cexFetchC2 0 0).2.2.1
      ⟨[⟨1000000, 0, 0, 0, 0, 0⟩], true, 2⟩ 1010000 1000000 (by decide) (by decide),
   (isReady_lifecycle 1 60000 cexFetchC2 0 0).2.2.2 ⟨[], false, 5⟩ [0, 1] rfl⟩

/-! ### Window maintenance on sorted buffers (C7) -/

/-- Candle timestamps are non-decreasing along the deque (front to back). -/
def tsSorted (l : List Candle) : Prop :=
  List.Pairwise (fun a b => a.timestamp ≤ b.timestamp) l

instance (l : List Candle) : Decidable (tsSorted l) :=
  List.instDecidablePairwise l

theorem mem_of_getLast?_eq (l : List Candle) (g : Candle)
    (h : l.getLast? = some g) : g ∈ l := by
  have hm : g ∈ l.getLast? := by rw [h]; rfl
  rcases List.mem_getLast?_eq_getLast hm with ⟨hne, hg⟩
  rw [hg]
  exact List.getLast_mem hne

/-- A successful eviction pass removes exactly a stale prefix. -/
theorem removeOldCandles_split (sinceDate : Int) :
    ∀ (buf buf' : List Candle), removeOldCandles sinceDate buf = some buf' →
      ∃ pre, buf = pre ++ buf' ∧ ∀ cd ∈ pre, cd.timestamp < sinceDate := by
  intro buf
  induction buf with
  | nil => intro buf' h; simp [removeOldCandles] at h
  | cons cd rest ih =>
    intro buf' h
    by_cases hlt : cd.timestamp < sinceDate
    · simp only [removeOldCandles, if_pos hlt] at h
      rcases ih buf' h with ⟨pre, heq, hall⟩
      refine ⟨cd :: pre, by simp [heq], ?_⟩
      intro x hx
      rcases List.mem_cons.mp hx with hx | hx
      · rw [hx]; exact hlt
      · exact hall x hx
    · simp only [removeOldCandles, if_neg hlt, Option.some.injEq] at h
      exact ⟨[], by simp [h], by simp⟩

/-- A successful eviction pass stops at a candle at-or-after the cutoff. -/
theorem removeOldCandles_head_ge (sinceDate : Int) :
    ∀ (buf buf' : List Candle), removeOldCandles sinceDate buf = some buf' →
      ∃ cd rest, buf' = cd :: rest ∧ sinceDate ≤ cd.timestamp := by
  intro buf
  induction buf with
  | nil => intro buf' h; simp [removeOldCandles] at h
  | cons cd rest ih =>
    intro buf' h
    by_cases hlt : cd.timestamp < sinceDate
    · simp only [removeOldCandles, if_pos hlt] at h
      exact ih buf' h
    · simp only [removeOldCandles, if_neg hlt, Option.some.injEq] at h
      exact ⟨cd, rest, h.symm, not_lt.mp hlt⟩

theorem tsSorted_of_append_right (a b : List Candle)
    (h : tsSorted (a ++ b)) : tsSorted b :=
  (List.pairwise_append.mp h).2.1

theorem tsSorted_append (a b : List Candle) (ha : tsSorted a) (hb : tsSorted b)
    (hab : ∀ x ∈ a, ∀ y ∈ b, x.timestamp ≤ y.timestamp) : tsSorted (a ++ b) :=
  List.pairwise_append.mpr ⟨ha, hb, hab⟩

theorem tsSorted_le_getLast :
    ∀ (l : List Candle), tsSorted l →
      ∀ x ∈ l, ∀ g, l.getLast? = some g → x.timestamp ≤ g.timestamp := by
  intro l
  induction l with
  | nil => intro _ x hx; simp at hx
  | cons cd rest ih =>
    intro hs x hx g hg
    cases rest with
    | nil =>
      simp at hg hx
      rw [hx, ← hg]
    | cons cd2 rest2 =>
      rw [List.getLast?_cons_cons] at hg
      have hcd : ∀ y ∈ cd2 :: rest2, cd.timestamp ≤ y.timestamp :=
        (List.pairwise_cons.mp hs).1
      have htail : tsSorted (cd2 :: rest2) := (List.pairwise_cons.mp hs).2
      rcases List.mem_cons.mp hx with hx | hx
      · subst hx
        exact hcd g (mem_of_getLast?_eq _ g hg)
      · exact ih htail x hx g hg

theorem tsSorted_front_le_back (l : List Candle) (hs : tsSorted l) :
    ∀ f b, frontTs l = some f → backTs l = some b → f ≤ b := by
  intro f b hf hb
  cases l with
  | nil => simp [frontTs] at hf
  | cons cd rest =>
    have hf' : cd.timestamp = f := by simpa [frontTs] using hf
    rcases Option.map_eq_some'.mp hb with ⟨g, hg, hgb⟩
    rw [← hf', ← hgb]
    exact tsSorted_le_getLast _ hs cd (List.mem_cons_self cd rest) g hg

/-- C7: on a timestamp-ascending buffer, an eviction pass
(`#removeOldCandles` against the cutoff `getTimestampForDaysAgo T days`)
that returns normally evicts only from the front: the remaining buffer is a
suffix of the input whose candles are all at-or-after `T - days*dayMillis`,
every removed candle was strictly older than the cutoff (so no in-window
candle is removed), and the back candle is untouched. -/
theorem removeOldCandles_window (T days : Int) (buf buf' : List Candle)
    (hs : tsSorted buf)
    (h : removeOldCandles (getTimestampForDaysAgo T days) buf = some buf') :
    (∀ cd ∈ buf', getTimestampForDaysAgo T days ≤ cd.timestamp) ∧
    (∃ pre, buf = pre ++ buf' ∧
      ∀ cd ∈ pre, cd.timestamp < getTimestampForDaysAgo T days) ∧
    backTs buf' = backTs buf := by
  rcases removeOldCandles_split _ buf buf' h with ⟨pre, heq, hpre⟩
  rcases removeOldCandles_head_ge _ buf buf' h with ⟨cd0, rest, hb', hge⟩
  have hs' : tsSorted buf' := tsSorted_of_append_right pre buf' (heq ▸ hs)
  refine ⟨?_, ⟨pre, heq, hpre⟩, ?_⟩
  · intro x hx
    rw [hb'] at hx hs'
    rcases List.mem_cons.mp hx with hx | hx
    · rw [hx]; exact hge
    · exact le_trans hge ((List.pairwise_cons.mp hs').1 x hx)
  · rw [heq, hb']
    unfold backTs
    rw [List.getLast?_append_cons]

/-- C7 witness: with `T` two days and the window one day, the stale candle
is evicted and the in-window candle survives as front and back. -/
theorem removeOldCandles_window_witness :
    (∀ cd ∈ [(⟨90000000, 0, 0, 0, 0, 0⟩ : Candle)],
        getTimestampForDaysAgo 172800000 1 ≤ cd.timestamp) ∧
    (∃ pre, [(⟨86000000, 0, 0, 0, 0, 0⟩ : Candle), ⟨90000000, 0, 0, 0, 0, 0⟩] =
        pre ++ [(⟨90000000, 0, 0, 0, 0, 0⟩ : Candle)] ∧
      ∀ cd ∈ pre, cd.timestamp < getTimestampForDaysAgo 172800000 1) ∧
    backTs [(⟨90000000, 0, 0, 0, 0, 0⟩ : Candle)] =
      backTs [(⟨86000000, 0, 0, 0, 0, 0⟩ : Candle), ⟨90000000, 0, 0, 0, 0, 0⟩] :=
  removeOldCandles_window 172800000 1
    [⟨86000000, 0, 0, 0, 0, 0⟩, ⟨90000000, 0, 0, 0, 0, 0⟩]
    [⟨90000000, 0, 0, 0, 0, 0⟩] (by decide) (by decide)

/-! ### Ordering invariant of every reachable buffer (C9) -/

/-- The fetch collaborator contract assumed by the spec: every resolved
chunk is ascending in timestamp and lies at-or-after the requested `since`. -/
def FetchContract (fetch : Nat → Int → FetchOutcome) : Prop :=
  ∀ (k : Nat) (since : Int) (chunk : List Candle),
    fetch k since = FetchOutcome.ok chunk →
      tsSorted chunk ∧ ∀ cd ∈ chunk, since ≤ cd.timestamp

/-- Provider states after each firing of the monitoring interval. -/
def ticksTrace (days tfMs : Int) (fetch : Nat → Int → FetchOutcome) :
    ProvSt → List Int → List ProvSt
  | _, [] => []
  | s, t :: rest =>
    monitorStep days tfMs fetch s t ::
      ticksTrace days tfMs fetch (monitorStep days tfMs fetch s t) rest

/-- Every provider state of a run: after each backfill iteration, then (when
the loop exited) after the finishing eviction, then — only when the initial
load ended ready — after each live tick. -/
def fullTrace (days tfMs : Int) (fetch : Nat → Int → FetchOutcome)
    (fuel : Nat) (startSince finishNow : Int) (nows : List Int) : List ProvSt :=
  match (backfillLoop days tfMs fetch fuel ⟨[], startSince, false, 0⟩).2.2 with
  | none => backfillStates days tfMs fetch fuel ⟨[], startSince, false, 0⟩
  | some _ =>
    backfillStates days tfMs fetch fuel ⟨[], startSince, false, 0⟩ ++
      finishBackfill days finishNow
          (backfillLoop days tfMs fetch fuel ⟨[], startSince, false, 0⟩).1
          (backfillLoop days tfMs fetch fuel ⟨[], startSince, false, 0⟩).2.1 ::
        (if (finishBackfill days finishNow
              (backfillLoop days tfMs fetch fuel ⟨[], startSince, false, 0⟩).1
              (backfillLoop days tfMs fetch fuel ⟨[], startSince, false, 0⟩).2.1).isReady then
          ticksTrace days tfMs fetch
            (finishBackfill days finishNow
              (backfillLoop days tfMs fetch fuel ⟨[], startSince, false, 0⟩).1
              (backfillLoop days tfMs fetch fuel ⟨[], startSince, false, 0⟩).2.1)
            nows
        else [])

theorem backfillIter_inl_buffer (days tfMs : Int) (s : LoopSt) (o : FetchOutcome)
    (buf : List Candle) (r : ExitReason)
    (h : backfillIter days tfMs s o = Sum.inl (buf, r)) :
    buf = s.buffer ∨ ∃ chunk, o = FetchOutcome.ok chunk ∧ buf = s.buffer ++ chunk := by
  cases o with
  | err =>
    simp [backfillIter] at h
    exact Or.inl h.1.symm
  | ok chunk =>
    by_cases hcE : chunk.isEmpty
    · simp [backfillIter, hcE] at h
      exact Or.inl h.1.symm
    · by_cases hw : (widthCheck days (s.buffer ++ chunk) ||
          sizeCheck days (s.buffer ++ chunk)) = true
      · simp [backfillIter, hcE, hw] at h
        exact Or.inr ⟨chunk, rfl, h.1.symm⟩
      · simp [backfillIter, hcE, hw] at h

theorem backfillIter_inr_state (days tfMs : Int) (s : LoopSt) (o : FetchOutcome)
    (s' : LoopSt) (h : backfillIter days tfMs s o = Sum.inr s') :
    ∃ chunk, o = FetchOutcome.ok chunk ∧ chunk ≠ [] ∧
      s'.buffer = s.buffer ++ chunk ∧
      s'.nextCandleTime = ((chunk.getLast?).getD defaultCandle).timestamp + tfMs := by
  cases o with
  | err => simp [backfillIter] at h
  | ok chunk =>
    by_cases hcE : chunk.isEmpty
    · simp [backfillIter, hcE] at h
    · by_cases hw : (widthCheck days (s.buffer ++ chunk) ||
          sizeCheck days (s.buffer ++ chunk)) = true
      · simp [backfillIter, hcE, hw] at h
      · simp [backfillIter, hcE, hw] at h
        refine ⟨chunk, rfl, by simpa using hcE, ?_, ?_⟩
        · rw [← h]
        · rw [← h]

theorem finishBackfill_sorted (days now : Int) (buf : List Candle) (calls : Nat)
    (hs : tsSorted buf) : tsSorted (finishBackfill days now buf calls).buffer := by
  unfold finishBackfill
  cases hrm : removeOldCandles (getTimestampForDaysAgo now days) buf with
  | none => exact List.Pairwise.nil
  | some kept =>
    rcases removeOldCandles_split _ buf kept hrm with ⟨pre, heq, _⟩
    exact tsSorted_of_append_right pre kept (heq ▸ hs)

theorem watchStep_sorted (days tfMs now : Int) (fetch : Nat → Int → FetchOutcome)
    (hc : FetchContract fetch) (htf : 0 < tfMs) (s : ProvSt)
    (hs : tsSorted s.buffer) :
    tsSorted (watchStep days tfMs now fetch s).buffer := by
  unfold watchStep
  split
  · exact hs
  · rename_i b hb
    split
    · exact hs
    · rename_i chunk hf
      rcases hc s.calls (b + tfMs) chunk hf with ⟨hcs, hcge⟩
      have happ : tsSorted (s.buffer ++ chunk) := by
        apply tsSorted_append _ _ hs hcs
        intro x hx y hy
        rcases Option.map_eq_some'.mp hb with ⟨g, hg, hgb⟩
        have h1 : x.timestamp ≤ g.timestamp :=
          tsSorted_le_getLast _ hs x hx g hg
        have h2 : b + tfMs ≤ y.timestamp := hcge y hy
        omega
      split
      · rename_i kept hrm
        rcases removeOldCandles_split _ _ kept hrm with ⟨pre, heq, _⟩
        exact tsSorted_of_append_right pre kept (heq ▸ happ)
      · exact List.Pairwise.nil

theorem monitorStep_sorted (days tfMs : Int) (fetch : Nat → Int → FetchOutcome)
    (hc : FetchContract fetch) (htf : 0 < tfMs) (s : ProvSt) (now : Int)
    (hs : tsSorted s.buffer) :
    tsSorted (monitorStep days tfMs fetch s now).buffer := by
  unfold monitorStep
  by_cases hr : s.isReady = true
  · rw [if_pos hr]
    exact watchStep_sorted days tfMs now fetch hc htf s hs
  · rw [if_neg hr]
    exact hs

theorem ticksTrace_sorted (days tfMs : Int) (fetch : Nat → Int → FetchOutcome)
    (hc : FetchContract fetch) (htf : 0 < tfMs) :
    ∀ (nows : List Int) (s : ProvSt), tsSorted s.buffer →
      ∀ st ∈ ticksTrace days tfMs fetch s nows, tsSorted st.buffer := by
  intro nows
  induction nows with
  | nil => intro s _ st hst; simp [ticksTrace] at hst
  | cons t rest ih =>
    intro s hs st hst
    have hnext : tsSorted (monitorStep days tfMs fetch s t).buffer :=
      monitorStep_sorted days tfMs fetch hc htf s t hs
    rcases List.mem_cons.mp hst with hst | hst
    · rw [hst]; exact hnext
    · exact ih (monitorStep days tfMs fetch s t) hnext st hst

theorem backfillLoop_sorted (days tfMs : Int) (fetch : Nat → Int → FetchOutcome)
    (hc : FetchContract fetch) (htf : 0 < tfMs) :
    ∀ (n : Nat) (s : LoopSt), tsSorted s.buffer →
      (∀ cd ∈ s.buffer, cd.timestamp < s.nextCandleTime) →
      (∀ st ∈ backfillStates days tfMs fetch n s, tsSorted st.buffer) ∧
      tsSorted (backfillLoop days tfMs fetch n s).1 := by
  intro n
  induction n with
  | zero =>
    intro s hs _
    exact ⟨by intro st hst; simp [backfillStates] at hst, hs⟩
  | succ n ih =>
    intro s hs hb
    cases hit : backfillIter days tfMs s (fetch s.calls s.nextCandleTime) with
    | inl p =>
      rcases p with ⟨buf, r⟩
      have hbuf : tsSorted buf := by
        rcases backfillIter_inl_buffer days tfMs s _ buf r hit with
          h | ⟨chunk, ho, hba⟩
        · rw [h]; exact hs
        · rcases hc s.calls s.nextCandleTime chunk ho with ⟨hcs, hcge⟩
          rw [hba]
          apply tsSorted_append _ _ hs hcs
          intro x hx y hy
          have h1 : x.timestamp < s.nextCandleTime := hb x hx
          have h2 : s.nextCandleTime ≤ y.timestamp := hcge y hy
          omega
      constructor
      · intro st hst
        unfold backfillStates at hst
        rw [hit] at hst
        simp at hst
        rw [hst]
        exact hbuf
      · unfold backfillLoop
        rw [hit]
        exact hbuf
    | inr s' =>
      rcases backfillIter_inr_state days tfMs s _ s' hit with
        ⟨chunk, ho, hcne, hbuf, hnext⟩
      rcases hc s.calls s.nextCandleTime chunk ho with ⟨hcs, hcge⟩
      have hgl : chunk.getLast? = some (chunk.getLast hcne) :=
        List.getLast?_eq_getLast_of_ne_nil hcne
      have hs' : tsSorted s'.buffer := by
        rw [hbuf]
        apply tsSorted_append _ _ hs hcs
        intro x hx y hy
        have h1 : x.timestamp < s.nextCandleTime := hb x hx
        have h2 : s.nextCandleTime ≤ y.timestamp := hcge y hy
        omega
      have hb' : ∀ cd ∈ s'.buffer, cd.timestamp < s'.nextCandleTime := by
        intro cd hcd
        rw [hnext]
        have hgld : ((chunk.getLast?).getD defaultCandle) = chunk.getLast hcne := by
          rw [hgl]; rfl
        rw [hgld]
        rw [hbuf] at hcd
        rcases List.mem_append.mp hcd with hcd | hcd
        · have h1 : cd.timestamp < s.nextCandleTime := hb cd hcd
          have h2 : s.nextCandleTime ≤ (chunk.getLast hcne).timestamp :=
            hcge _ (List.getLast_mem hcne)
          omega
        · have h3 : cd.timestamp ≤ (chunk.getLast hcne).timestamp :=
            tsSorted_le_getLast chunk hcs cd hcd _ hgl
          omega
      rcases ih s' hs' hb' with ⟨ihs, ihl⟩
      constructor
      · intro st hst
        unfold backfillStates at hst
        rw [hit] at hst
        rcases List.mem_cons.mp hst with hst | hst
        · rw [hst]; exact hs'
        · exact ihs st hst
      · unfold backfillLoop
        rw [hit]
        exact ihl

/-- C9: assuming every fetch resolves candles in ascending timestamp order
at-or-after the requested `since`, every deque state the provider reaches —
after each backfill iteration, after the finishing eviction, and after every
live tick — has non-decreasing candle timestamps by position, and on every
non-empty deque `front().timestamp ≤ back().timestamp`. -/
theorem buffer_always_sorted (days tfMs : Int) (fetch : Nat → Int → FetchOutcome)
    (fuel : Nat) (startSince finishNow : Int) (nows : List Int)
    (hc : FetchContract fetch) (htf : 0 < tfMs) :
    ∀ st ∈ fullTrace days tfMs fetch fuel startSince finishNow nows,
      tsSorted st.buffer ∧
      ∀ f b, frontTs st.buffer = some f → backTs st.buffer = some b → f ≤ b := by
  have hloop := backfillLoop_sorted days tfMs fetch hc htf fuel
      ⟨[], startSince, false, 0⟩ List.Pairwise.nil (by intro cd hcd; simp at hcd)
  intro st hst
  have hsorted : tsSorted st.buffer := by
    unfold fullTrace at hst
    cases hres : (backfillLoop days tfMs fetch fuel ⟨[], startSince, false, 0⟩).2.2 with
    | none =>
      rw [hres] at hst
      exact hloop.1 st hst
    | some r =>
      rw [hres] at hst
      have hfin : tsSorted (finishBackfill days finishNow
          (backfillLoop days tfMs fetch fuel ⟨[], startSince, false, 0⟩).1
          (backfillLoop days tfMs fetch fuel ⟨[], startSince, false, 0⟩).2.1).buffer :=
        finishBackfill_sorted _ _ _ _ hloop.2
      rcases List.mem_append.mp hst with hst | hst
      · exact hloop.1 st hst
      · rcases List.mem_cons.mp hst with hst | hst
        · rw [hst]; exact hfin
        · by_cases hr : (finishBackfill days finishNow
              (backfillLoop days tfMs fetch fuel ⟨[], startSince, false, 0⟩).1
              (backfillLoop days tfMs fetch fuel ⟨[], startSince, false, 0⟩).2.1).isReady = true
          · rw [if_pos hr] at hst
            exact ticksTrace_sorted days tfMs fetch hc htf nows _ hfin st hst
          · rw [if_neg hr] at hst
            simp at hst
  exact ⟨hsorted, fun f b hf hb => tsSorted_front_le_back _ hsorted f b hf hb⟩

/-- Oracle resolving exactly one candle placed at the requested `since`. -/
def witnessFetch : Nat → Int → FetchOutcome := fun _ since =>
  FetchOutcome.ok [⟨since, 0, 0, 0, 0, 0⟩]

theorem witnessFetch_contract : FetchContract witnessFetch := by
  intro k since chunk h
  simp only [witnessFetch, FetchOutcome.ok.injEq] at h
  subst h
  constructor
  · exact List.pairwise_singleton _ _
  · intro cd hcd
    simp only [List.mem_singleton] at hcd
    rw [hcd]

/-- C9 witness: a state reached after the first backfill iteration of a
concrete contract-abiding run is sorted. -/
theorem buffer_always_sorted_witness :
    tsSorted (⟨[⟨0, 0, 0, 0, 0, 0⟩], false, 1⟩ : ProvSt).buffer :=
  (buffer_always_sorted 1 60000 witnessFetch 2 0 999999 []
    witnessFetch_contract (by decide)
    ⟨[⟨0, 0, 0, 0, 0, 0⟩], false, 1⟩ (by decide)).1
